import Mathlib

/-!
# Verification of the HUD real-estate data pipeline

A shallow embedding of `src/real_estate_analytics/hud_pipeline.py`
(class `HUDDataPipeline`) together with proofs about it.

Modelling conventions:
* JSON values (`response.json()` payloads, data packages) are the mutual
  inductive `Json`/`JsonList`/`JsonObj`.  Numbers are integers; floating
  point payloads are outside the embedding.
* Python exceptions become `Except String`; the message strings are the
  ones the source raises.
* The HTTP boundary is an oracle `Nat → HttpResponse` giving the response
  the server would return to the i-th attempt of a request.
* Effects (files written, blobs uploaded, `logger.error` calls in the
  county loop) are recorded in an explicit `World` state.
* `time.sleep` delays have no observable effect in the embedding and are
  not modelled.
-/

mutual

/-- A JSON value as produced by `response.json()` / consumed by
`json.dump`.  `num` carries an integer: the pipeline's payloads are
modelled with integral numbers only (floats are outside the shallow
embedding). -/
inductive Json where
  | null : Json
  | bool (b : Bool) : Json
  | num (n : Int) : Json
  | str (s : String) : Json
  | arr (xs : JsonList) : Json
  | obj (fs : JsonObj) : Json

/-- A JSON array body (its own list type, so that structural mutual
recursion over `Json` is available). -/
inductive JsonList where
  | nil : JsonList
  | cons (hd : Json) (tl : JsonList) : JsonList

/-- A JSON object body: key/value pairs in insertion order (a Python
`dict` has no duplicate keys; the type does not enforce that). -/
inductive JsonObj where
  | nil : JsonObj
  | cons (k : String) (v : Json) (tl : JsonObj) : JsonObj

end

mutual

def Json.beqJ : Json → Json → Bool
  | .null, .null => true
  | .bool a, .bool b => a == b
  | .num a, .num b => a == b
  | .str a, .str b => a == b
  | .arr a, .arr b => JsonList.beqL a b
  | .obj a, .obj b => JsonObj.beqO a b
  | _, _ => false

def JsonList.beqL : JsonList → JsonList → Bool
  | .nil, .nil => true
  | .cons a as, .cons b bs => Json.beqJ a b && JsonList.beqL as bs
  | _, _ => false

def JsonObj.beqO : JsonObj → JsonObj → Bool
  | .nil, .nil => true
  | .cons k a as, .cons l b bs => k == l && Json.beqJ a b && JsonObj.beqO as bs
  | _, _ => false

end

mutual

theorem Json.beqJ_refl : ∀ v : Json, Json.beqJ v v = true
  | .null => rfl
  | .bool b => by simp [Json.beqJ]
  | .num n => by simp [Json.beqJ]
  | .str s => by simp [Json.beqJ]
  | .arr xs => by simp [Json.beqJ, JsonList.beqL_refl xs]
  | .obj fs => by simp [Json.beqJ, JsonObj.beqO_refl fs]

theorem JsonList.beqL_refl : ∀ xs : JsonList, JsonList.beqL xs xs = true
  | .nil => rfl
  | .cons x xs => by simp [JsonList.beqL, Json.beqJ_refl x, JsonList.beqL_refl xs]

theorem JsonObj.beqO_refl : ∀ fs : JsonObj, JsonObj.beqO fs fs = true
  | .nil => rfl
  | .cons k v fs => by simp [JsonObj.beqO, Json.beqJ_refl v, JsonObj.beqO_refl fs]

end

mutual

theorem Json.eq_of_beqJ : ∀ a b : Json, Json.beqJ a b = true → a = b
  | .null, .null, _ => rfl
  | .null, .bool _, h => by simp [Json.beqJ] at h
  | .null, .num _, h => by simp [Json.beqJ] at h
  | .null, .str _, h => by simp [Json.beqJ] at h
  | .null, .arr _, h => by simp [Json.beqJ] at h
  | .null, .obj _, h => by simp [Json.beqJ] at h
  | .bool _, .null, h => by simp [Json.beqJ] at h
  | .bool a, .bool b, h => by simp [Json.beqJ] at h; simp [h]
  | .bool _, .num _, h => by simp [Json.beqJ] at h
  | .bool _, .str _, h => by simp [Json.beqJ] at h
  | .bool _, .arr _, h => by simp [Json.beqJ] at h
  | .bool _, .obj _, h => by simp [Json.beqJ] at h
  | .num _, .null, h => by simp [Json.beqJ] at h
  | .num _, .bool _, h => by simp [Json.beqJ] at h
  | .num a, .num b, h => by simp [Json.beqJ] at h; simp [h]
  | .num _, .str _, h => by simp [Json.beqJ] at h
  | .num _, .arr _, h => by simp [Json.beqJ] at h
  | .num _, .obj _, h => by simp [Json.beqJ] at h
  | .str _, .null, h => by simp [Json.beqJ] at h
  | .str _, .bool _, h => by simp [Json.beqJ] at h
  | .str _, .num _, h => by simp [Json.beqJ] at h
  | .str a, .str b, h => by simp [Json.beqJ] at h; simp [h]
  | .str _, .arr _, h => by simp [Json.beqJ] at h
  | .str _, .obj _, h => by simp [Json.beqJ] at h
  | .arr _, .null, h => by simp [Json.beqJ] at h
  | .arr _, .bool _, h => by simp [Json.beqJ] at h
  | .arr _, .num _, h => by simp [Json.beqJ] at h
  | .arr _, .str _, h => by simp [Json.beqJ] at h
  | .arr a, .arr b, h => by
      simp only [Json.beqJ] at h
      exact congrArg Json.arr (JsonList.eq_of_beqL a b h)
  | .arr _, .obj _, h => by simp [Json.beqJ] at h
  | .obj _, .null, h => by simp [Json.beqJ] at h
  | .obj _, .bool _, h => by simp [Json.beqJ] at h
  | .obj _, .num _, h => by simp [Json.beqJ] at h
  | .obj _, .str _, h => by simp [Json.beqJ] at h
  | .obj _, .arr _, h => by simp [Json.beqJ] at h
  | .obj a, .obj b, h => by
      simp only [Json.beqJ] at h
      exact congrArg Json.obj (JsonObj.eq_of_beqO a b h)

theorem JsonList.eq_of_beqL : ∀ a b : JsonList, JsonList.beqL a b = true → a = b
  | .nil, .nil, _ => rfl
  | .nil, .cons _ _, h => by simp [JsonList.beqL] at h
  | .cons _ _, .nil, h => by simp [JsonList.beqL] at h
  | .cons x xs, .cons y ys, h => by
      simp only [JsonList.beqL, Bool.and_eq_true] at h
      rw [Json.eq_of_beqJ x y h.1, JsonList.eq_of_beqL xs ys h.2]

theorem JsonObj.eq_of_beqO : ∀ a b : JsonObj, JsonObj.beqO a b = true → a = b
  | .nil, .nil, _ => rfl
  | .nil, .cons _ _ _, h => by simp [JsonObj.beqO] at h
  | .cons _ _ _, .nil, h => by simp [JsonObj.beqO] at h
  | .cons k x xs, .cons l y ys, h => by
      simp only [JsonObj.beqO, Bool.and_eq_true] at h
      obtain ⟨⟨hk, hv⟩, ht⟩ := h
      rw [eq_of_beq hk, Json.eq_of_beqJ x y hv, JsonObj.eq_of_beqO xs ys ht]

end

instance : DecidableEq Json := fun a b =>
  if h : Json.beqJ a b = true then .isTrue (Json.eq_of_beqJ a b h)
  else .isFalse (fun he => h (he ▸ Json.beqJ_refl a))

instance : DecidableEq JsonList := fun a b =>
  if h : JsonList.beqL a b = true then .isTrue (JsonList.eq_of_beqL a b h)
  else .isFalse (fun he => h (he ▸ JsonList.beqL_refl a))

instance : DecidableEq JsonObj := fun a b =>
  if h : JsonObj.beqO a b = true then .isTrue (JsonObj.eq_of_beqO a b h)
  else .isFalse (fun he => h (he ▸ JsonObj.beqO_refl a))

/-- Python truthiness of a JSON value (`if not data:`): `None`, `False`,
`0`, `""`, `[]` and the empty dict are falsy, everything else truthy. -/
def Json.isTruthy : Json → Bool
  | .null => false
  | .bool b => b
  | .num n => !(n == 0)
  | .str s => !(s == "")
  | .arr .nil => false
  | .arr (.cons _ _) => true
  | .obj .nil => false
  | .obj (.cons _ _ _) => true

/-- `key in d` / `d[key]` on a Python dict, over the insertion-ordered
pair list (keys of a `dict` are unique, so first match is the match). -/
def JsonObj.lookup (key : String) : JsonObj → Option Json
  | .nil => none
  | .cons k v tl => if k == key then some v else JsonObj.lookup key tl

/-- Embed an ordinary Lean list of values as a JSON array body. -/
def JsonList.ofList : List Json → JsonList
  | [] => .nil
  | x :: xs => .cons x (JsonList.ofList xs)

/-! ## The rate-limited request executor (`HUDDataPipeline._make_request`) -/

/-- One HTTP response as seen by `_execute_request`: the status code and
the decoded body (`response.json()`).  The `.text` logged for non-200
responses does not affect control flow and is not carried. -/
structure HttpResponse where
  status : Nat
  body : Json

/-- The base URL constant of the pipeline (`self.base_url`). -/
def base_url : String := "https://www.huduser.gov/hudapi/public"

/-- One attempt of `_execute_request` on a given response: HTTP 200 with
a dict containing `"data"` unwraps it, HTTP 200 with a bare list returns
it unchanged, any other 200 body raises the unexpected-structure error;
429 raises the rate-limit error; any other status raises the
status-code error. -/
def execRequest (r : HttpResponse) : Except String Json :=
  if r.status = 200 then
    match r.body with
    | .obj fs =>
        match JsonObj.lookup "data" fs with
        | some v => .ok v
        | none => .error "Unexpected API response structure"
    | .arr xs => .ok (.arr xs)
    | _ => .error "Unexpected API response structure"
  else if r.status = 429 then .error "Rate limit exceeded"
  else .error ("API request failed with status " ++ toString r.status)

/-- The retry loop that `@retry(wait=wait_exponential(...),
stop=stop_after_attempt(3))` wraps around `_execute_request`: attempt
`i` uses `env i`; on failure, while attempts remain, back off and retry
(the backoff sleep is unobservable here); once the final attempt fails,
tenacity raises a `RetryError` carrying the last attempt's exception,
modelled as propagating that last error.  Returns the result paired
with the number of attempts issued. -/
def attemptFrom (env : Nat → HttpResponse) (i : Nat) : Nat → Except String Json × Nat
  | 0 => (.error "no attempts permitted", 0)
  | remaining + 1 =>
    match execRequest (env i) with
    | .ok v => (.ok v, i + 1)
    | .error e =>
        if remaining == 0 then (.error e, i + 1)
        else attemptFrom env (i + 1) remaining

/-- `_make_request`: run the retry loop with `stop_after_attempt(3)`.
The outer `try/except` logs and re-raises, leaving the result
unchanged.  Second component: total attempts issued. -/
def makeRequest (env : Nat → HttpResponse) : Except String Json × Nat :=
  attemptFrom env 0 3

/-! ## Resource fetchers -/

/-- Python truthiness of an optional string argument (`if entity_id:`):
`None` and `""` are falsy. -/
def truthyStr : Option String → Bool
  | none => false
  | some s => !(s == "")

/-- `params = {"year": year} if year else None`: a year of `None` or
`0` (falsy) sends no query parameter. -/
def yearParam (year : Option Nat) : Option Nat :=
  match year with
  | none => none
  | some y => if y == 0 then none else some y

/-- URL selection of `get_fair_market_rents`: a truthy `entity_id`
takes the per-entity data URL, else a truthy `state` takes the state
URL, else `ValueError`. -/
def fmr_url (state entity_id : Option String) : Except String String :=
  if truthyStr entity_id then .ok (base_url ++ "/fmr/data/" ++ entity_id.getD "")
  else if truthyStr state then .ok (base_url ++ "/fmr/statedata/" ++ state.getD "")
  else .error "Either state code or entity_id must be provided"

/-- URL selection of `get_income_limits` (same shape over `/il/`). -/
def il_url (state entity_id : Option String) : Except String String :=
  if truthyStr entity_id then .ok (base_url ++ "/il/data/" ++ entity_id.getD "")
  else if truthyStr state then .ok (base_url ++ "/il/statedata/" ++ state.getD "")
  else .error "Either state code or entity_id must be provided"

/-- `get_fair_market_rents(year, state, entity_id)`: build the URL (a
`ValueError` here happens before any network call, so zero attempts are
issued), then delegate to `_make_request`.  Returns the payload result
paired with the number of network attempts issued. -/
def get_fair_market_rents (env : Nat → HttpResponse) (year : Option Nat)
    (state entity_id : Option String) : Except String Json × Nat :=
  match fmr_url state entity_id with
  | .error e => (.error e, 0)
  | .ok _ => makeRequest env

/-- `get_income_limits(year, state, entity_id)`, same contract as
`get_fair_market_rents`. -/
def get_income_limits (env : Nat → HttpResponse) (year : Option Nat)
    (state entity_id : Option String) : Except String Json × Nat :=
  match il_url state entity_id with
  | .error e => (.error e, 0)
  | .ok _ => makeRequest env

/-! ## The county aggregator (`get_county_data`) -/

/-- One county record from `listCounties`: the two fields the loop
reads (`county['fips_code']`, `county['county_name']`). -/
structure County where
  fips_code : String
  county_name : String
deriving DecidableEq

instance {ε α : Type} [DecidableEq ε] [DecidableEq α] : DecidableEq (Except ε α) := fun a b =>
  match a, b with
  | .ok x, .ok y =>
      if h : x = y then .isTrue (by rw [h]) else .isFalse (by intro he; cases he; exact h rfl)
  | .error x, .error y =>
      if h : x = y then .isTrue (by rw [h]) else .isFalse (by intro he; cases he; exact h rfl)
  | .ok _, .error _ => .isFalse (by intro he; cases he)
  | .error _, .ok _ => .isFalse (by intro he; cases he)

/-- The per-county oracle: the county record together with the results
its two sub-fetches (`get_fair_market_rents(year, entity_id=fips)` and
`get_income_limits(year, entity_id=fips)`) would produce.  When the FMR
fetch fails the IL fetch is never issued, which the loop below reflects
by inspecting `fmr` first. -/
structure CountyFetch where
  county : County
  fmr : Except String Json
  il : Except String Json
deriving DecidableEq

/-- The assembled per-county package appended on success:
`{'county_info': ..., 'fair_market_rents': ..., 'income_limits': ...}`. -/
structure CountyPackage where
  county_info : County
  fair_market_rents : Json
  income_limits : Json
deriving DecidableEq

/-- The `for county in counties` loop body of `get_county_data`: on any
per-county failure, log one error (counted) and continue with the next
county; on success append the full package.  Returns the packages in
county order paired with the number of `logger.error` calls. -/
def countyLoop : List CountyFetch → List CountyPackage × Nat
  | [] => ([], 0)
  | cf :: rest =>
    match cf.fmr with
    | .error _ =>
        let (pkgs, errs) := countyLoop rest
        (pkgs, errs + 1)
    | .ok fmrv =>
        match cf.il with
        | .error _ =>
            let (pkgs, errs) := countyLoop rest
            (pkgs, errs + 1)
        | .ok ilv =>
            let (pkgs, errs) := countyLoop rest
            (⟨cf.county, fmrv, ilv⟩ :: pkgs, errs)

/-- `get_county_data(state_code, year)`: fetch the county list for the
state (`countiesRes` is that fetch's outcome; its failure is not caught
and propagates), then run the per-county loop.  `state_code` and `year`
only parameterize the oracle's fetches and do not otherwise influence
control flow. -/
def get_county_data (countiesRes : Except String (List CountyFetch))
    (state_code : String) (year : Nat) : Except String (List CountyPackage × Nat) :=
  match countiesRes with
  | .error e => .error e
  | .ok counties => .ok (countyLoop counties)

example : get_county_data (.ok []) "ZZ" 2024 = .ok ([], 0) := rfl

/-! ## `json.dumps(data, indent=2)`

The serializer both sinks feed to their writes: pretty-printed with a
2-space indent and the default `ensure_ascii=True` (every character
outside `0x20..0x7E` is `\uXXXX`-escaped, astral characters as a
surrogate pair; `"` and `\` and the control shortcuts use their
two-character escapes). -/

/-- `k` spaces of indentation. -/
def pad (k : Nat) : List Char := List.replicate k ' '

/-- Lowercase hex digit for `d < 16`, as Python's `\uXXXX` escapes use. -/
def hexDigitChar (d : Nat) : Char :=
  if d < 10 then Char.ofNat (48 + d) else Char.ofNat (87 + d)

/-- A `\uXXXX` escape for a 16-bit code unit `n`. -/
def uEsc (n : Nat) : List Char :=
  ['\\', 'u', hexDigitChar (n / 4096 % 16), hexDigitChar (n / 256 % 16),
   hexDigitChar (n / 16 % 16), hexDigitChar (n % 16)]

/-- One character of a JSON string, escaped the way `json.dumps` with
`ensure_ascii=True` escapes it. -/
def escChar (c : Char) : List Char :=
  if c = '"' then ['\\', '"']
  else if c = '\\' then ['\\', '\\']
  else if c = '\n' then ['\\', 'n']
  else if c = '\t' then ['\\', 't']
  else if c = '\r' then ['\\', 'r']
  else if c.toNat = 8 then ['\\', 'b']
  else if c.toNat = 12 then ['\\', 'f']
  else if c.toNat < 0x20 then uEsc c.toNat
  else if c.toNat ≤ 0x7E then [c]
  else if c.toNat < 0x10000 then uEsc c.toNat
  else uEsc (0xD800 + (c.toNat - 0x10000) / 0x400) ++ uEsc (0xDC00 + (c.toNat - 0x10000) % 0x400)

/-- Escape a character run. -/
def escList : List Char → List Char
  | [] => []
  | c :: cs => escChar c ++ escList cs

/-- Decimal digit characters of `n`, most significant first. -/
def natRepr (n : Nat) : List Char :=
  if n < 10 then [Char.ofNat (48 + n)]
  else natRepr (n / 10) ++ [Char.ofNat (48 + n % 10)]
decreasing_by exact Nat.div_lt_self (by omega) (by omega)

/-- An integer numeral: optional minus sign, then decimal digits. -/
def intRepr (i : Int) : List Char :=
  if i < 0 then '-' :: natRepr i.natAbs else natRepr i.natAbs

mutual

/-- Serialize a value at indentation level `ind`, matching the layout
`json.dump(data, f, indent=2)` produces: empty containers inline as
`[]`/the empty braces, non-empty containers put each element on its
own line indented `2*(ind+1)` spaces with `,` separators and a `": "`
key separator, and close on a line indented `2*ind` spaces. -/
def prettyV : Json → Nat → List Char
  | .null, _ => ['n', 'u', 'l', 'l']
  | .bool true, _ => ['t', 'r', 'u', 'e']
  | .bool false, _ => ['f', 'a', 'l', 's', 'e']
  | .num n, _ => intRepr n
  | .str s, _ => '"' :: (escList s.data ++ ['"'])
  | .arr .nil, _ => ['[', ']']
  | .arr (.cons h t), ind =>
      '[' :: '\n' :: (pad (2 * (ind + 1)) ++ (prettyV h (ind + 1) ++
        (prettyArrTail t (ind + 1) ++ ('\n' :: (pad (2 * ind) ++ [']'])))))
  | .obj .nil, _ => ['{', '}']
  | .obj (.cons k v t), ind =>
      '{' :: '\n' :: (pad (2 * (ind + 1)) ++ ('"' :: (escList k.data ++
        ('"' :: ':' :: ' ' :: (prettyV v (ind + 1) ++
          (prettyObjTail t (ind + 1) ++ ('\n' :: (pad (2 * ind) ++ ['}']))))))))

/-- The remaining elements of a non-empty array: `,`, newline, indent,
element, repeated. -/
def prettyArrTail : JsonList → Nat → List Char
  | .nil, _ => []
  | .cons h t, ind =>
      ',' :: '\n' :: (pad (2 * ind) ++ (prettyV h ind ++ prettyArrTail t ind))

/-- The remaining members of a non-empty object. -/
def prettyObjTail : JsonObj → Nat → List Char
  | .nil, _ => []
  | .cons k v t, ind =>
      ',' :: '\n' :: (pad (2 * ind) ++ ('"' :: (escList k.data ++
        ('"' :: ':' :: ' ' :: (prettyV v ind ++ prettyObjTail t ind)))))

end

/-- `json.dumps(data, indent=2)` as a string, the exact bytes
`save_locally` and `save_to_azure` write. -/
def json_dumps (v : Json) : String := String.mk (prettyV v 0)

/-! ## `json.load`

The parser used to read a sink's file back.  It follows the JSON
grammar `json.load` accepts, restricted to integral numerals (float
syntax is outside the embedding, as are the lone surrogates Python
strings tolerate but Lean characters cannot carry). -/

/-- JSON whitespace (space, tab, newline, carriage return). -/
def isWsC (c : Char) : Bool := c == ' ' || c == '\t' || c == '\n' || c == '\r'

/-- Decimal digit test. -/
def isDigitC (c : Char) : Bool := '0' ≤ c && c ≤ '9'

/-- Drop leading whitespace. -/
def skipWs : List Char → List Char
  | [] => []
  | c :: cs => if isWsC c then skipWs cs else c :: cs

/-- Value of one hex digit. -/
def hexValC (c : Char) : Option Nat :=
  if '0' ≤ c && c ≤ '9' then some (c.toNat - 48)
  else if 'a' ≤ c && c ≤ 'f' then some (c.toNat - 87)
  else if 'A' ≤ c && c ≤ 'F' then some (c.toNat - 55)
  else none

/-- Value of a four-hex-digit escape body. -/
def hex4C (a b c d : Char) : Option Nat :=
  match hexValC a, hexValC b, hexValC c, hexValC d with
  | some va, some vb, some vc, some vd => some (((va * 16 + vb) * 16 + vc) * 16 + vd)
  | _, _, _, _ => none

/-- The two-character escapes. -/
def unescapeC : Char → Option Char
  | 'n' => some '\n'
  | 't' => some '\t'
  | 'r' => some '\r'
  | 'b' => some (Char.ofNat 8)
  | 'f' => some (Char.ofNat 12)
  | '/' => some '/'
  | '"' => some '"'
  | '\\' => some '\\'
  | _ => none

mutual

/-- Parse a string body after the opening quote, accumulator-style: an
unescaped quote closes the string, a backslash starts an escape,
anything else is taken literally. -/
def parseStrBody (acc : List Char) : List Char → Option (List Char × List Char)
  | [] => none
  | c :: rest =>
      if c = '"' then some (acc.reverse, rest)
      else if c = '\\' then parseEsc acc rest
      else parseStrBody (c :: acc) rest

/-- Decode one escape (the input starts right after the backslash): a
`\uXXXX` high surrogate must be followed by a low surrogate (the pair
decodes to one astral character), a lone surrogate is rejected (Lean
characters cannot carry one); other escapes decode directly. -/
def parseEsc (acc : List Char) : List Char → Option (List Char × List Char)
  | [] => none
  | e :: rest =>
      if e = 'u' then
        match rest with
        | a :: b :: c :: d :: rest2 =>
            (match hex4C a b c d with
             | none => none
             | some n =>
                 if n < 0xD800 then parseStrBody (Char.ofNat n :: acc) rest2
                 else if n < 0xDC00 then parseLowSurrogate acc n rest2
                 else if n < 0xE000 then none
                 else parseStrBody (Char.ofNat n :: acc) rest2)
        | _ => none
      else
        match unescapeC e with
        | some ch => parseStrBody (ch :: acc) rest
        | none => none

/-- After a high surrogate `hi`, expect `\uXXXX` with a low surrogate
and combine the pair into one character. -/
def parseLowSurrogate (acc : List Char) (hi : Nat) : List Char → Option (List Char × List Char)
  | b1 :: u1 :: a :: b :: c :: d :: rest2 =>
      if b1 = '\\' ∧ u1 = 'u' then
        match hex4C a b c d with
        | none => none
        | some m =>
            if 0xDC00 ≤ m ∧ m < 0xE000 then
              parseStrBody
                (Char.ofNat (0x10000 + (hi - 0xD800) * 0x400 + (m - 0xDC00)) :: acc) rest2
            else none
      else none
  | _ => none

end

/-- Longest digit prefix and the remainder. -/
def takeDigits : List Char → List Char × List Char
  | [] => ([], [])
  | c :: cs =>
      if isDigitC c then
        let p := takeDigits cs
        (c :: p.1, p.2)
      else ([], c :: cs)

/-- Numeric value of a digit run. -/
def digitsVal (ds : List Char) : Nat :=
  ds.foldl (fun acc c => acc * 10 + (c.toNat - 48)) 0

/-- Parse an integral numeral (optional minus sign, then digits). -/
def parseNum (cs : List Char) : Option (Json × List Char) :=
  match cs with
  | '-' :: rest =>
      let p := takeDigits rest
      if p.1.isEmpty then none else some (.num (-(digitsVal p.1 : Int)), p.2)
  | _ =>
      let p := takeDigits cs
      if p.1.isEmpty then none else some (.num (digitsVal p.1 : Int), p.2)

mutual

/-- Parse one JSON value (prefix-style: trailing input is returned).
`fuel` only bounds the recursion; `json_loads` below supplies more fuel
than any input can consume. -/
def parseValue : Nat → List Char → Option (Json × List Char)
  | 0, _ => none
  | fuel + 1, cs =>
    match skipWs cs with
    | 'n' :: 'u' :: 'l' :: 'l' :: rest => some (.null, rest)
    | 't' :: 'r' :: 'u' :: 'e' :: rest => some (.bool true, rest)
    | 'f' :: 'a' :: 'l' :: 's' :: 'e' :: rest => some (.bool false, rest)
    | '"' :: rest =>
        match parseStrBody [] rest with
        | some (body, rest2) => some (.str (String.mk body), rest2)
        | none => none
    | '[' :: rest =>
        (match skipWs rest with
         | [] => none
         | c :: rest2 =>
             if c = ']' then some (.arr .nil, rest2)
             else
               match parseArrItems fuel (c :: rest2) with
               | some (items, rest3) => some (.arr items, rest3)
               | none => none)
    | '{' :: rest =>
        (match skipWs rest with
         | [] => none
         | c :: rest2 =>
             if c = '}' then some (.obj .nil, rest2)
             else
               match parseObjItems fuel (c :: rest2) with
               | some (fields, rest3) => some (.obj fields, rest3)
               | none => none)
    | c :: rest => if c = '-' ∨ isDigitC c = true then parseNum (c :: rest) else none
    | [] => none

/-- Parse the elements of a non-empty array, comma-separated, up to and
including the closing bracket. -/
def parseArrItems : Nat → List Char → Option (JsonList × List Char)
  | 0, _ => none
  | fuel + 1, cs =>
    match parseValue fuel cs with
    | none => none
    | some (v, rest) =>
        match skipWs rest with
        | ',' :: rest2 =>
            (match parseArrItems fuel rest2 with
             | some (items, rest3) => some (.cons v items, rest3)
             | none => none)
        | ']' :: rest2 => some (.cons v .nil, rest2)
        | _ => none

/-- Parse the members of a non-empty object, up to and including the
closing brace. -/
def parseObjItems : Nat → List Char → Option (JsonObj × List Char)
  | 0, _ => none
  | fuel + 1, cs =>
    match skipWs cs with
    | '"' :: rest =>
        (match parseStrBody [] rest with
         | none => none
         | some (key, rest1) =>
             match skipWs rest1 with
             | ':' :: rest2 =>
                 (match parseValue fuel rest2 with
                  | none => none
                  | some (v, rest3) =>
                      match skipWs rest3 with
                      | ',' :: rest4 =>
                          (match parseObjItems fuel rest4 with
                           | some (fields, rest5) => some (.cons (String.mk key) v fields, rest5)
                           | none => none)
                      | '}' :: rest4 => some (.cons (String.mk key) v .nil, rest4)
                      | _ => none)
             | _ => none)
    | _ => none

end

/-- `json.load` on a whole document: parse one value and require only
whitespace after it.  The fuel `s.length + 1` dominates any nesting the
input can express. -/
def json_loads (s : String) : Option Json :=
  match parseValue (s.length + 1) s.data with
  | some (v, rest) => if (skipWs rest).isEmpty then some v else none
  | none => none

/-! ## Sinks and `process_state` -/

/-- The observable effects of one run: local files written (path and
contents, latest write first — a later write to the same path shadows
an earlier one, modelling the unconditional overwrite), Azure JSON
blobs, Azure parquet blobs (the parquet byte encoding is the
out-of-scope columnar encoder, so the blob carries the package value
it serializes), and the number of `logger.error` calls made by the
county loop. -/
structure World where
  localFiles : List (String × String)
  azureBlobs : List (String × String)
  azureParquet : List (String × Json)
  errorLogCount : Nat
deriving DecidableEq

/-- Read back a written file: the most recent write to `path`. -/
def lookupFile (path : String) : List (String × String) → Option String
  | [] => none
  | (p, c) :: rest => if p == path then some c else lookupFile path rest

/-- `data/{dataset_name}/{year}/{state}/{state}_data.json`. -/
def localPath (dataset_name : String) (year : Nat) (state : String) : String :=
  "data/" ++ dataset_name ++ "/" ++ toString year ++ "/" ++ state ++ "/" ++ state ++ "_data.json"

/-- Blob path `{dataset_name}/{year}/{state}/{state}_data.json`. -/
def azurePath (dataset_name : String) (year : Nat) (state : String) : String :=
  dataset_name ++ "/" ++ toString year ++ "/" ++ state ++ "/" ++ state ++ "_data.json"

/-- Blob path `{dataset_name}/{year}/{state}/{state}_data.parquet`. -/
def parquetPath (dataset_name : String) (year : Nat) (state : String) : String :=
  dataset_name ++ "/" ++ toString year ++ "/" ++ state ++ "/" ++ state ++ "_data.parquet"

/-- `save_locally`: raise `ValueError` when the package is falsy (the
check precedes the write, so nothing is written then); otherwise create
the directories and write `json.dumps(data, indent=2)` to the local
path, overwriting unconditionally. -/
def save_locally (data : Json) (dataset_name : String) (year : Nat) (state : String)
    (w : World) : Except String World :=
  if data.isTruthy then
    .ok { w with localFiles := (localPath dataset_name year state, json_dumps data) :: w.localFiles }
  else .error ("No data provided for " ++ dataset_name)

/-- `save_to_azure`: raise `ValueError` when no connection was
configured, else upload the JSON serialization to the `raw-data`
container (overwrite on). -/
def save_to_azure (conn : Bool) (data : Json) (dataset_name : String) (year : Nat)
    (state : String) (w : World) : Except String World :=
  if conn then
    .ok { w with azureBlobs := (azurePath dataset_name year state, json_dumps data) :: w.azureBlobs }
  else .error "Azure connection not set. Call set_azure_connection first."

/-- `save_to_azure_parquet`: raise when no connection was configured,
else convert the package to parquet (the conversion itself is the
external columnar encoder) and upload it. -/
def save_to_azure_parquet (conn : Bool) (data : Json) (dataset_name : String) (year : Nat)
    (state : String) (w : World) : Except String World :=
  if conn then
    .ok { w with azureParquet := (parquetPath dataset_name year state, data) :: w.azureParquet }
  else .error "Azure connection not set"

/-- The state-level oracle for one `process_state` call: the outcomes
of `get_fair_market_rents(year, state)`, `get_income_limits(year,
state)` and of the county-list fetch with its per-county sub-fetches. -/
structure PipelineEnv where
  fmrState : Except String Json
  ilState : Except String Json
  counties : Except String (List CountyFetch)

/-- The JSON value of one county record, as it came from the API. -/
def countyInfoJson (c : County) : Json :=
  .obj (.cons "fips_code" (.str c.fips_code) (.cons "county_name" (.str c.county_name) .nil))

/-- The JSON value of one assembled county package. -/
def countyPackageJson (p : CountyPackage) : Json :=
  .obj (.cons "county_info" (countyInfoJson p.county_info)
    (.cons "fair_market_rents" p.fair_market_rents
      (.cons "income_limits" p.income_limits .nil)))

/-- The county aggregate as a JSON array. -/
def countiesJson (ps : List CountyPackage) : Json :=
  .arr (JsonList.ofList (ps.map countyPackageJson))

/-- A state package `{'state_level': ..., 'counties': ...}`: always an
object with those two keys, hence always truthy. -/
def statePackage (state_level counties : Json) : Json :=
  .obj (.cons "state_level" state_level (.cons "counties" counties .nil))

/-- `process_state(state_code, year, storage_type)`: fetch the two
state-level datasets (failures propagate — the `except` clause logs and
re-raises), aggregate the counties, assemble the two packages sharing
the county aggregate, then route: `"local"`/`"both"` writes the two
local files, `"azure"`/`"both"` uploads two JSON blobs and two parquet
blobs; any other storage type matches neither branch and nothing is
saved.  Sink errors propagate. -/
def process_state (conn : Bool) (env : PipelineEnv) (w : World) (state_code : String)
    (year : Nat) (storage_type : String) : Except String World :=
  match env.fmrState with
  | .error e => .error e
  | .ok fmr_data =>
  match env.ilState with
  | .error e => .error e
  | .ok il_data =>
  match env.counties with
  | .error e => .error e
  | .ok counties =>
    let pe := countyLoop counties
    let county_json := countiesJson pe.1
    let fmr_package := statePackage fmr_data county_json
    let il_package := statePackage il_data county_json
    let w0 : World := { w with errorLogCount := w.errorLogCount + pe.2 }
    let afterLocal : Except String World :=
      if storage_type == "local" || storage_type == "both" then
        match save_locally fmr_package "fair_market_rents" year state_code w0 with
        | .error e => .error e
        | .ok w1 => save_locally il_package "income_limits" year state_code w1
      else .ok w0
    match afterLocal with
    | .error e => .error e
    | .ok w1 =>
      if storage_type == "azure" || storage_type == "both" then
        match save_to_azure conn fmr_package "fair_market_rents" year state_code w1 with
        | .error e => .error e
        | .ok w2 =>
        match save_to_azure conn il_package "income_limits" year state_code w2 with
        | .error e => .error e
        | .ok w3 =>
        match save_to_azure_parquet conn fmr_package "fair_market_rents_parquet" year state_code w3 with
        | .error e => .error e
        | .ok w4 => save_to_azure_parquet conn il_package "income_limits_parquet" year state_code w4
      else .ok w1

/-! ## Round-trip infrastructure: whitespace, hex digits, numerals -/

/-- Every character is whitespace. -/
def allWs : List Char → Bool
  | [] => true
  | c :: cs => isWsC c && allWs cs

/-- A remainder that cannot extend a numeral: empty or not starting
with a digit (every position a serialized value is followed by — `,`,
a newline, `]`, the closing brace, end of input — qualifies). -/
def numSafe : List Char → Bool
  | [] => true
  | c :: _ => !isDigitC c

theorem skipWs_cons_not {c : Char} (s : List Char) (h : isWsC c = false) :
    skipWs (c :: s) = c :: s := by
  simp [skipWs, h]

theorem skipWs_append_allWs {ws : List Char} (h : allWs ws = true) (s : List Char) :
    skipWs (ws ++ s) = skipWs s := by
  induction ws with
  | nil => rfl
  | cons c cs ih =>
      simp only [allWs, Bool.and_eq_true] at h
      simp [skipWs, h.1, ih h.2]

theorem allWs_pad (k : Nat) : allWs (pad k) = true := by
  induction k with
  | zero => rfl
  | succ n ih => simpa [pad, List.replicate_succ, allWs, isWsC] using ih

theorem allWs_nl_pad (k : Nat) : allWs ('\n' :: pad k) = true := by
  simp [allWs, isWsC, allWs_pad]

theorem hexValC_hexDigitChar {d : Nat} (h : d < 16) :
    hexValC (hexDigitChar d) = some d := by
  interval_cases d <;> decide

theorem hex4C_uEsc {n : Nat} (h : n < 65536) :
    hex4C (hexDigitChar (n / 4096 % 16)) (hexDigitChar (n / 256 % 16))
      (hexDigitChar (n / 16 % 16)) (hexDigitChar (n % 16)) = some n := by
  have h1 := hexValC_hexDigitChar (show n / 4096 % 16 < 16 from Nat.mod_lt _ (by omega))
  have h2 := hexValC_hexDigitChar (show n / 256 % 16 < 16 from Nat.mod_lt _ (by omega))
  have h3 := hexValC_hexDigitChar (show n / 16 % 16 < 16 from Nat.mod_lt _ (by omega))
  have h4 := hexValC_hexDigitChar (show n % 16 < 16 from Nat.mod_lt _ (by omega))
  simp only [hex4C, h1, h2, h3, h4, Option.some.injEq]
  omega

theorem digitChar_spec {d : Nat} (h : d < 10) :
    isDigitC (Char.ofNat (48 + d)) = true ∧ (Char.ofNat (48 + d)).toNat - 48 = d := by
  interval_cases d <;> exact ⟨by decide, by decide⟩

theorem natRepr_all_digits (n : Nat) : ∀ c ∈ natRepr n, isDigitC c = true := by
  induction n using Nat.strongRecOn with
  | _ n ih =>
    intro c hc
    rw [natRepr.eq_def] at hc
    by_cases h : n < 10
    · rw [if_pos h] at hc
      simp only [List.mem_singleton] at hc
      subst hc
      exact (digitChar_spec h).1
    · rw [if_neg h, List.mem_append] at hc
      rcases hc with hc | hc
      · exact ih (n / 10) (Nat.div_lt_self (by omega) (by omega)) c hc
      · simp only [List.mem_singleton] at hc
        subst hc
        exact (digitChar_spec (Nat.mod_lt _ (by omega))).1

theorem natRepr_ne_nil (n : Nat) : natRepr n ≠ [] := by
  rw [natRepr.eq_def]
  by_cases h : n < 10
  · simp [h]
  · simp [h]

theorem natRepr_head (n : Nat) : ∃ c t, natRepr n = c :: t ∧ isDigitC c = true := by
  match hrep : natRepr n with
  | [] => exact absurd hrep (natRepr_ne_nil n)
  | c :: t => exact ⟨c, t, rfl, natRepr_all_digits n c (hrep ▸ List.mem_cons_self _ _)⟩

theorem digitsVal_append_digit (ds : List Char) (c : Char) :
    digitsVal (ds ++ [c]) = digitsVal ds * 10 + (c.toNat - 48) := by
  simp [digitsVal, List.foldl_append]

theorem digitsVal_natRepr (n : Nat) : digitsVal (natRepr n) = n := by
  induction n using Nat.strongRecOn with
  | _ n ih =>
    rw [natRepr.eq_def]
    by_cases h : n < 10
    · rw [if_pos h]
      have hd := (digitChar_spec h).2
      simp only [digitsVal, List.foldl_cons, List.foldl_nil]
      omega
    · rw [if_neg h, digitsVal_append_digit,
          ih (n / 10) (Nat.div_lt_self (by omega) (by omega))]
      have hd := (digitChar_spec (show n % 10 < 10 from Nat.mod_lt _ (by omega))).2
      omega

theorem takeDigits_not_digit {c : Char} (s : List Char) (h : isDigitC c = false) :
    takeDigits (c :: s) = ([], c :: s) := by
  simp [takeDigits, h]

theorem takeDigits_numSafe {s : List Char} (h : numSafe s = true) :
    takeDigits s = ([], s) := by
  match s with
  | [] => rfl
  | c :: t =>
      simp only [numSafe, Bool.not_eq_true'] at h
      exact takeDigits_not_digit t h

theorem takeDigits_digits_append {ds : List Char} (hds : ∀ c ∈ ds, isDigitC c = true)
    {rest : List Char} (hrest : numSafe rest = true) :
    takeDigits (ds ++ rest) = (ds, rest) := by
  induction ds with
  | nil => simpa using takeDigits_numSafe hrest
  | cons c t ih =>
      have hc := hds c (List.mem_cons_self _ _)
      have ht := ih (fun x hx => hds x (List.mem_cons_of_mem _ hx))
      simp [takeDigits, hc, ht]

theorem parseNum_intRepr (i : Int) {rest : List Char} (hr : numSafe rest = true) :
    parseNum (intRepr i ++ rest) = some (.num i, rest) := by
  rw [intRepr]
  by_cases hneg : i < 0
  · rw [if_pos hneg]
    simp only [List.cons_append]
    have htd := takeDigits_digits_append (natRepr_all_digits i.natAbs) hr
    rw [parseNum, htd]
    rw [if_neg (by simpa [List.isEmpty_iff] using natRepr_ne_nil i.natAbs)]
    rw [digitsVal_natRepr]
    simp only [Option.some.injEq, Prod.mk.injEq, Json.num.injEq, and_true]
    omega
  · rw [if_neg hneg]
    obtain ⟨c, t, hrep, hc⟩ := natRepr_head i.natAbs
    have hcm : c ≠ '-' := by
      intro h
      rw [h] at hc
      exact absurd hc (by decide)
    rw [hrep, List.cons_append, parseNum.eq_def]
    split
    · rename_i heq
      rw [List.cons.injEq] at heq
      exact absurd heq.1 hcm
    · rename_i heq
      have htd := takeDigits_digits_append (natRepr_all_digits i.natAbs) hr
      rw [hrep, List.cons_append] at htd
      rw [htd]
      have hdv : digitsVal (c :: t) = i.natAbs := by
        have := digitsVal_natRepr i.natAbs
        rwa [hrep] at this
      simp only [List.isEmpty_cons, Bool.false_eq_true, if_false, hdv,
                 Option.some.injEq, Prod.mk.injEq, Json.num.injEq, and_true]
      omega


theorem parseStrBody_cons (acc : List Char) (c : Char) (rest : List Char) :
    parseStrBody acc (c :: rest) =
      if c = '"' then some (acc.reverse, rest)
      else if c = '\\' then parseEsc acc rest
      else parseStrBody (c :: acc) rest := rfl

theorem parseEsc_u_some (acc : List Char) {a b c2 d : Char} {n : Nat}
    (hh : hex4C a b c2 d = some n) (rest2 : List Char) :
    parseEsc acc ('u' :: a :: b :: c2 :: d :: rest2) =
      (if n < 0xD800 then parseStrBody (Char.ofNat n :: acc) rest2
       else if n < 0xDC00 then parseLowSurrogate acc n rest2
       else if n < 0xE000 then none
       else parseStrBody (Char.ofNat n :: acc) rest2) := by
  simp only [parseEsc, if_pos, hh]

theorem parseLowSurrogate_eq (acc : List Char) (hi : Nat) {a b c2 d : Char} {m : Nat}
    (hh : hex4C a b c2 d = some m) (rest2 : List Char) :
    parseLowSurrogate acc hi ('\\' :: 'u' :: a :: b :: c2 :: d :: rest2) =
      (if 0xDC00 ≤ m ∧ m < 0xE000 then
        parseStrBody (Char.ofNat (0x10000 + (hi - 0xD800) * 0x400 + (m - 0xDC00)) :: acc) rest2
      else none) := by
  simp only [parseLowSurrogate, hh]
  simp

theorem parseStrBody_escChar (c : Char) (acc rest : List Char) :
    parseStrBody acc (escChar c ++ rest) = parseStrBody (c :: acc) rest := by
  by_cases h1 : c = '"'
  · subst h1; rfl
  by_cases h2 : c = '\\'
  · subst h2; rfl
  by_cases h3 : c = '\n'
  · subst h3; rfl
  by_cases h4 : c = '\t'
  · subst h4; rfl
  by_cases h5 : c = '\r'
  · subst h5; rfl
  by_cases h6 : c.toNat = 8
  · have hc : c = Char.ofNat 8 := by rw [← Char.ofNat_toNat c, h6]
    subst hc; rfl
  by_cases h7 : c.toNat = 12
  · have hc : c = Char.ofNat 12 := by rw [← Char.ofNat_toNat c, h7]
    subst hc; rfl
  by_cases h8 : c.toNat < 0x20
  · have hesc : escChar c = uEsc c.toNat := by
      rw [escChar, if_neg h1, if_neg h2, if_neg h3, if_neg h4, if_neg h5, if_neg h6, if_neg h7,
          if_pos h8]
    rw [hesc, uEsc]
    simp only [List.cons_append, List.nil_append]
    rw [parseStrBody_cons, if_neg (by decide), if_pos rfl]
    rw [parseEsc_u_some acc (hex4C_uEsc (by omega)) rest]
    rw [if_pos (by omega), Char.ofNat_toNat]
  by_cases h9 : c.toNat ≤ 0x7E
  · have hesc : escChar c = [c] := by
      rw [escChar, if_neg h1, if_neg h2, if_neg h3, if_neg h4, if_neg h5, if_neg h6, if_neg h7,
          if_neg h8, if_pos h9]
    rw [hesc, List.cons_append, List.nil_append, parseStrBody_cons, if_neg h1, if_neg h2]
  have hval : c.toNat < 0xD800 ∨ (0xDFFF < c.toNat ∧ c.toNat < 0x110000) := c.valid
  by_cases h10 : c.toNat < 0x10000
  · have hesc : escChar c = uEsc c.toNat := by
      rw [escChar, if_neg h1, if_neg h2, if_neg h3, if_neg h4, if_neg h5, if_neg h6, if_neg h7,
          if_neg h8, if_neg h9, if_pos h10]
    rw [hesc, uEsc]
    simp only [List.cons_append, List.nil_append]
    rw [parseStrBody_cons, if_neg (by decide), if_pos rfl]
    rw [parseEsc_u_some acc (hex4C_uEsc (by omega)) rest]
    rcases hval with hlow | hhigh
    · rw [if_pos hlow, Char.ofNat_toNat]
    · rw [if_neg (by omega), if_neg (by omega), if_neg (by omega), Char.ofNat_toNat]
  · have hup : c.toNat < 1114112 := by rcases hval with h | h <;> omega
    have hesc : escChar c =
        uEsc (0xD800 + (c.toNat - 0x10000) / 0x400) ++ uEsc (0xDC00 + (c.toNat - 0x10000) % 0x400) := by
      rw [escChar, if_neg h1, if_neg h2, if_neg h3, if_neg h4, if_neg h5, if_neg h6, if_neg h7,
          if_neg h8, if_neg h9, if_neg h10]
    rw [hesc, uEsc, uEsc]
    simp only [List.cons_append, List.nil_append, List.append_assoc]
    rw [parseStrBody_cons, if_neg (by decide), if_pos rfl]
    rw [parseEsc_u_some acc (hex4C_uEsc (by omega)) _]
    rw [if_neg (by omega), if_pos (by omega)]
    rw [parseLowSurrogate_eq acc _ (hex4C_uEsc (by omega)) rest]
    rw [if_pos (by constructor <;> omega)]
    have harith : 0x10000 + ((0xD800 + (c.toNat - 0x10000) / 0x400) - 0xD800) * 0x400 +
        ((0xDC00 + (c.toNat - 0x10000) % 0x400) - 0xDC00) = c.toNat := by omega
    rw [harith, Char.ofNat_toNat]

theorem parseStrBody_escList (cs : List Char) : ∀ acc rest : List Char,
    parseStrBody acc (escList cs ++ ('"' :: rest)) = some (acc.reverse ++ cs, rest) := by
  induction cs with
  | nil =>
      intro acc rest
      simp only [escList, List.nil_append]
      rw [parseStrBody_cons, if_pos rfl, List.append_nil]
  | cons c cs ih =>
      intro acc rest
      rw [escList, List.append_assoc, parseStrBody_escChar, ih]
      simp

theorem parseStrBody_render (s : String) (rest : List Char) :
    parseStrBody [] (escList s.data ++ ('"' :: rest)) = some (s.data, rest) := by
  rw [parseStrBody_escList]
  rfl

theorem digit_facts {c : Char} (h : isDigitC c = true) :
    isWsC c = false ∧ c ≠ ']' ∧ c ≠ '}' := by
  refine ⟨?_, ?_, ?_⟩
  · by_cases hw : isWsC c = true
    · simp only [isWsC, Bool.or_eq_true, beq_iff_eq] at hw
      rcases hw with ((rfl | rfl) | rfl) | rfl <;> exact absurd h (by decide)
    · exact Bool.not_eq_true _ ▸ eq_false_of_ne_true hw
  · intro heq; subst heq; exact absurd h (by decide)
  · intro heq; subst heq; exact absurd h (by decide)

theorem prettyV_head (v : Json) (ind : Nat) :
    ∃ c t, prettyV v ind = c :: t ∧ isWsC c = false ∧ c ≠ ']' ∧ c ≠ '}' := by
  cases v with
  | num n =>
      simp only [prettyV]
      rw [intRepr]
      by_cases hn : n < 0
      · rw [if_pos hn]
        exact ⟨_, _, rfl, rfl, by decide, by decide⟩
      · rw [if_neg hn]
        obtain ⟨c, t, hrep, hc⟩ := natRepr_head n.natAbs
        obtain ⟨hws, hbr, hbc⟩ := digit_facts hc
        exact ⟨c, t, hrep, hws, hbr, hbc⟩
  | bool b => cases b <;> exact ⟨_, _, rfl, rfl, by decide, by decide⟩
  | arr xs => cases xs <;> exact ⟨_, _, rfl, rfl, by decide, by decide⟩
  | obj fs => cases fs <;> exact ⟨_, _, rfl, rfl, by decide, by decide⟩
  | null => exact ⟨_, _, rfl, rfl, by decide, by decide⟩
  | str s => exact ⟨_, _, rfl, rfl, by decide, by decide⟩

theorem prettyV_length_pos (v : Json) (ind : Nat) : 0 < (prettyV v ind).length := by
  obtain ⟨c, t, hrep, _⟩ := prettyV_head v ind
  rw [hrep]
  simp

theorem parseValue_ws_prefix {ws : List Char} (h : allWs ws = true) :
    ∀ (fuel : Nat) (s : List Char), parseValue fuel (ws ++ s) = parseValue fuel s := by
  intro fuel s
  cases fuel with
  | zero => rfl
  | succ f =>
      simp only [parseValue]
      rw [skipWs_append_allWs h]

theorem parseValue_num_dispatch (f : Nat) {c0 : Char} (t : List Char)
    (hws : isWsC c0 = false) (hn : c0 ≠ 'n') (ht : c0 ≠ 't') (hf : c0 ≠ 'f') (hq : c0 ≠ '"')
    (hlb : c0 ≠ '[') (hob : c0 ≠ '{') (hg : c0 = '-' ∨ isDigitC c0 = true) :
    parseValue (f + 1) (c0 :: t) = parseNum (c0 :: t) := by
  have hsk : skipWs (c0 :: t) = c0 :: t := skipWs_cons_not t hws
  simp only [parseValue, hsk]
  split
  · rename_i heq; rw [List.cons.injEq] at heq; exact absurd heq.1 hn
  · rename_i heq; rw [List.cons.injEq] at heq; exact absurd heq.1 ht
  · rename_i heq; rw [List.cons.injEq] at heq; exact absurd heq.1 hf
  · rename_i heq; rw [List.cons.injEq] at heq; exact absurd heq.1 hq
  · rename_i heq; rw [List.cons.injEq] at heq; exact absurd heq.1 hlb
  · rename_i heq; rw [List.cons.injEq] at heq; exact absurd heq.1 hob
  · rename_i c rest heq
    rw [List.cons.injEq] at heq
    rw [heq.1, heq.2, if_pos (heq.1 ▸ hg)]
  · rename_i heq; exact absurd heq (List.cons_ne_nil _ _)

theorem digit_not_starters {c : Char} (h : isDigitC c = true) :
    c ≠ 'n' ∧ c ≠ 't' ∧ c ≠ 'f' ∧ c ≠ '"' ∧ c ≠ '[' ∧ c ≠ '{' ∧ c ≠ '-' := by
  refine ⟨?_, ?_, ?_, ?_, ?_, ?_, ?_⟩ <;>
    (intro heq; subst heq; exact absurd h (by decide))

theorem intRepr_head (i : Int) :
    ∃ c t, intRepr i = c :: t ∧ (c = '-' ∨ isDigitC c = true) := by
  rw [intRepr]
  by_cases hn : i < 0
  · rw [if_pos hn]
    exact ⟨'-', _, rfl, Or.inl rfl⟩
  · rw [if_neg hn]
    obtain ⟨c, t, hrep, hc⟩ := natRepr_head i.natAbs
    exact ⟨c, t, hrep, Or.inr hc⟩

theorem stringMk_data (s : String) : String.mk s.data = s := rfl

theorem parseValue_quote (f : Nat) (X : List Char) :
    parseValue (f + 1) ('"' :: X) =
      (match parseStrBody [] X with
       | some (body, rest2) => some (.str (String.mk body), rest2)
       | none => none) := rfl

theorem parseValue_lbracket (f : Nat) (X : List Char) :
    parseValue (f + 1) ('[' :: X) =
      (match skipWs X with
       | [] => none
       | c :: rest2 =>
           if c = ']' then some (.arr .nil, rest2)
           else
             match parseArrItems f (c :: rest2) with
             | some (items, rest3) => some (.arr items, rest3)
             | none => none) := rfl

theorem parseValue_lbrace (f : Nat) (X : List Char) :
    parseValue (f + 1) ('{' :: X) =
      (match skipWs X with
       | [] => none
       | c :: rest2 =>
           if c = '}' then some (.obj .nil, rest2)
           else
             match parseObjItems f (c :: rest2) with
             | some (fields, rest3) => some (.obj fields, rest3)
             | none => none) := rfl

theorem parseArrItems_step (f : Nat) (cs : List Char) :
    parseArrItems (f + 1) cs =
      (match parseValue f cs with
       | none => none
       | some (v, rest) =>
           match skipWs rest with
           | ',' :: rest2 =>
               (match parseArrItems f rest2 with
                | some (items, rest3) => some (.cons v items, rest3)
                | none => none)
           | ']' :: rest2 => some (.cons v .nil, rest2)
           | _ => none) := rfl

theorem parseObjItems_step (f : Nat) (cs : List Char) :
    parseObjItems (f + 1) cs =
      (match skipWs cs with
       | '"' :: rest =>
           (match parseStrBody [] rest with
            | none => none
            | some (key, rest1) =>
                match skipWs rest1 with
                | ':' :: rest2 =>
                    (match parseValue f rest2 with
                     | none => none
                     | some (v, rest3) =>
                         match skipWs rest3 with
                         | ',' :: rest4 =>
                             (match parseObjItems f rest4 with
                              | some (fields, rest5) => some (.cons (String.mk key) v fields, rest5)
                              | none => none)
                         | '}' :: rest4 => some (.cons (String.mk key) v .nil, rest4)
                         | _ => none)
                | _ => none)
       | _ => none) := rfl

mutual

theorem parse_prettyV : ∀ (v : Json) (ind fuel : Nat) (rest : List Char),
    (prettyV v ind).length < fuel → numSafe rest = true →
    parseValue fuel (prettyV v ind ++ rest) = some (v, rest)
  | .null, ind, fuel, rest, hf, _ => by
      cases fuel with
      | zero => exact absurd hf (Nat.not_lt_zero _)
      | succ f =>
          show parseValue (f + 1) ('n' :: 'u' :: 'l' :: 'l' :: rest) = some (.null, rest)
          rfl
  | .bool true, ind, fuel, rest, hf, _ => by
      cases fuel with
      | zero => exact absurd hf (Nat.not_lt_zero _)
      | succ f =>
          show parseValue (f + 1) ('t' :: 'r' :: 'u' :: 'e' :: rest) = some (.bool true, rest)
          rfl
  | .bool false, ind, fuel, rest, hf, _ => by
      cases fuel with
      | zero => exact absurd hf (Nat.not_lt_zero _)
      | succ f =>
          show parseValue (f + 1) ('f' :: 'a' :: 'l' :: 's' :: 'e' :: rest)
            = some (.bool false, rest)
          rfl
  | .num n, ind, fuel, rest, hf, hr => by
      cases fuel with
      | zero => exact absurd hf (Nat.not_lt_zero _)
      | succ f =>
          obtain ⟨c0, t0, hrep, hdig⟩ := intRepr_head n
          have hfacts : isWsC c0 = false ∧ c0 ≠ ']' ∧ c0 ≠ '}' := by
            rcases hdig with rfl | hd
            · exact ⟨by decide, by decide, by decide⟩
            · exact digit_facts hd
          have hstart : c0 ≠ 'n' ∧ c0 ≠ 't' ∧ c0 ≠ 'f' ∧ c0 ≠ '"' ∧ c0 ≠ '[' ∧ c0 ≠ '{' := by
            rcases hdig with rfl | hd
            · exact ⟨by decide, by decide, by decide, by decide, by decide, by decide⟩
            · obtain ⟨a1, a2, a3, a4, a5, a6, _⟩ := digit_not_starters hd
              exact ⟨a1, a2, a3, a4, a5, a6⟩
          have harg : prettyV (.num n) ind ++ rest = c0 :: (t0 ++ rest) := by
            show intRepr n ++ rest = c0 :: (t0 ++ rest)
            rw [hrep, List.cons_append]
          rw [harg, parseValue_num_dispatch f _ hfacts.1 hstart.1 hstart.2.1 hstart.2.2.1
              hstart.2.2.2.1 hstart.2.2.2.2.1 hstart.2.2.2.2.2 hdig]
          rw [← List.cons_append, ← hrep]
          exact parseNum_intRepr n hr
  | .str s, ind, fuel, rest, hf, _ => by
      cases fuel with
      | zero => exact absurd hf (Nat.not_lt_zero _)
      | succ f =>
          have harg : prettyV (.str s) ind ++ rest = '"' :: (escList s.data ++ ('"' :: rest)) := by
            simp [prettyV, List.append_assoc]
          rw [harg, parseValue_quote, parseStrBody_render]
  | .arr .nil, ind, fuel, rest, hf, _ => by
      cases fuel with
      | zero => exact absurd hf (Nat.not_lt_zero _)
      | succ f =>
          show parseValue (f + 1) ('[' :: (']' :: rest)) = some (.arr .nil, rest)
          rfl
  | .arr (.cons h t), ind, fuel, rest, hf, _ => by
      cases fuel with
      | zero => exact absurd hf (Nat.not_lt_zero _)
      | succ f =>
          have harg : prettyV (.arr (.cons h t)) ind ++ rest
              = '[' :: (('\n' :: pad (2 * (ind + 1))) ++ (prettyV h (ind + 1) ++
                  (prettyArrTail t (ind + 1) ++ ('\n' :: (pad (2 * ind) ++ (']' :: rest)))))) := by
            simp [prettyV, List.append_assoc]
          rw [harg, parseValue_lbracket]
          obtain ⟨c0, t0, hhead, hws0, hbr0, hbc0⟩ := prettyV_head h (ind + 1)
          have hskX : skipWs (('\n' :: pad (2 * (ind + 1))) ++ (prettyV h (ind + 1) ++
                  (prettyArrTail t (ind + 1) ++ ('\n' :: (pad (2 * ind) ++ (']' :: rest))))))
              = c0 :: (t0 ++ (prettyArrTail t (ind + 1) ++
                  ('\n' :: (pad (2 * ind) ++ (']' :: rest))))) := by
            rw [skipWs_append_allWs (allWs_nl_pad _), hhead, List.cons_append]
            exact skipWs_cons_not _ hws0
          rw [hskX]
          have hback : c0 :: (t0 ++ (prettyArrTail t (ind + 1) ++
                  ('\n' :: (pad (2 * ind) ++ (']' :: rest)))))
              = prettyV h (ind + 1) ++ (prettyArrTail t (ind + 1) ++
                  ('\n' :: (pad (2 * ind) ++ (']' :: rest)))) := by
            rw [hhead, List.cons_append]
          have hlen : (prettyV h (ind + 1)).length + (prettyArrTail t (ind + 1)).length + 1 < f := by
            simp only [prettyV, List.length_cons, List.length_append, pad,
              List.length_replicate] at hf
            omega
          have key := parse_prettyArr h t ind f [] rest rfl hlen
          rw [List.nil_append] at key
          simp only [if_neg hbr0, hback, key]
  | .obj .nil, ind, fuel, rest, hf, _ => by
      cases fuel with
      | zero => exact absurd hf (Nat.not_lt_zero _)
      | succ f =>
          show parseValue (f + 1) ('{' :: ('}' :: rest)) = some (.obj .nil, rest)
          rfl
  | .obj (.cons k v t), ind, fuel, rest, hf, _ => by
      cases fuel with
      | zero => exact absurd hf (Nat.not_lt_zero _)
      | succ f =>
          have harg : prettyV (.obj (.cons k v t)) ind ++ rest
              = '{' :: (('\n' :: pad (2 * (ind + 1))) ++ ('"' :: (escList k.data ++
                  ('"' :: ':' :: ' ' :: (prettyV v (ind + 1) ++ (prettyObjTail t (ind + 1) ++
                    ('\n' :: (pad (2 * ind) ++ ('}' :: rest))))))))) := by
            simp [prettyV, List.append_assoc]
          rw [harg, parseValue_lbrace]
          have hskX : skipWs (('\n' :: pad (2 * (ind + 1))) ++ ('"' :: (escList k.data ++
                  ('"' :: ':' :: ' ' :: (prettyV v (ind + 1) ++ (prettyObjTail t (ind + 1) ++
                    ('\n' :: (pad (2 * ind) ++ ('}' :: rest)))))))))
              = '"' :: (escList k.data ++ ('"' :: ':' :: ' ' :: (prettyV v (ind + 1) ++
                  (prettyObjTail t (ind + 1) ++ ('\n' :: (pad (2 * ind) ++ ('}' :: rest))))))) := by
            rw [skipWs_append_allWs (allWs_nl_pad _)]
            exact skipWs_cons_not _ (by decide)
          rw [hskX]
          have hlen : (escList k.data).length + (prettyV v (ind + 1)).length
              + (prettyObjTail t (ind + 1)).length + 1 < f := by
            simp only [prettyV, List.length_cons, List.length_append, pad,
              List.length_replicate] at hf
            omega
          have key := parse_prettyObj k v t ind f [] rest rfl hlen
          rw [List.nil_append] at key
          simp only [if_neg (show ('"' : Char) ≠ '}' by decide), key]
termination_by v _ _ _ _ _ => sizeOf v

theorem parse_prettyArr : ∀ (h : Json) (t : JsonList) (ind fuel : Nat) (ws rest : List Char),
    allWs ws = true →
    (prettyV h (ind + 1)).length + (prettyArrTail t (ind + 1)).length + 1 < fuel →
    parseArrItems fuel (ws ++ (prettyV h (ind + 1) ++ (prettyArrTail t (ind + 1) ++
      ('\n' :: (pad (2 * ind) ++ (']' :: rest)))))) = some (.cons h t, rest)
  | h, t, ind, fuel, ws, rest, hws, hb => by
      cases fuel with
      | zero => exact absurd hb (Nat.not_lt_zero _)
      | succ f =>
          rw [parseArrItems_step, parseValue_ws_prefix hws]
          have hns : numSafe (prettyArrTail t (ind + 1) ++
              ('\n' :: (pad (2 * ind) ++ (']' :: rest)))) = true := by
            cases t <;> rfl
          have hv := parse_prettyV h (ind + 1) f
            (prettyArrTail t (ind + 1) ++ ('\n' :: (pad (2 * ind) ++ (']' :: rest))))
            (by omega) hns
          rw [hv]
          cases t with
          | nil =>
              have hsk : skipWs (prettyArrTail JsonList.nil (ind + 1) ++
                  ('\n' :: (pad (2 * ind) ++ (']' :: rest)))) = ']' :: rest := by
                show skipWs (('\n' :: pad (2 * ind)) ++ (']' :: rest)) = ']' :: rest
                rw [skipWs_append_allWs (allWs_nl_pad _)]
                exact skipWs_cons_not _ (by decide)
              simp only [hsk]
          | cons x xs =>
              have hshape : prettyArrTail (JsonList.cons x xs) (ind + 1) ++
                  ('\n' :: (pad (2 * ind) ++ (']' :: rest)))
                  = ',' :: (('\n' :: pad (2 * (ind + 1))) ++ (prettyV x (ind + 1) ++
                      (prettyArrTail xs (ind + 1) ++
                        ('\n' :: (pad (2 * ind) ++ (']' :: rest)))))) := by
                simp [prettyArrTail, List.append_assoc]
              have hsk : skipWs (prettyArrTail (JsonList.cons x xs) (ind + 1) ++
                  ('\n' :: (pad (2 * ind) ++ (']' :: rest))))
                  = ',' :: (('\n' :: pad (2 * (ind + 1))) ++ (prettyV x (ind + 1) ++
                      (prettyArrTail xs (ind + 1) ++
                        ('\n' :: (pad (2 * ind) ++ (']' :: rest)))))) := by
                rw [hshape]
                exact skipWs_cons_not _ (by decide)
              have hb2 : (prettyV x (ind + 1)).length + (prettyArrTail xs (ind + 1)).length + 1 < f := by
                simp only [prettyArrTail, List.length_cons, List.length_append, pad,
                  List.length_replicate] at hb
                omega
              have key := parse_prettyArr x xs ind f ('\n' :: pad (2 * (ind + 1))) rest
                (allWs_nl_pad _) hb2
              simp only [hsk, key]
termination_by h t _ _ _ _ _ _ => sizeOf h + sizeOf t + 1

theorem parse_prettyObj : ∀ (k : String) (v : Json) (t : JsonObj) (ind fuel : Nat)
    (ws rest : List Char),
    allWs ws = true →
    (escList k.data).length + (prettyV v (ind + 1)).length
      + (prettyObjTail t (ind + 1)).length + 1 < fuel →
    parseObjItems fuel (ws ++ ('"' :: (escList k.data ++ ('"' :: ':' :: ' ' ::
      (prettyV v (ind + 1) ++ (prettyObjTail t (ind + 1) ++
        ('\n' :: (pad (2 * ind) ++ ('}' :: rest))))))))) = some (.cons k v t, rest)
  | k, v, t, ind, fuel, ws, rest, hws, hb => by
      cases fuel with
      | zero => exact absurd hb (Nat.not_lt_zero _)
      | succ f =>
          rw [parseObjItems_step]
          have hsk1 : skipWs (ws ++ ('"' :: (escList k.data ++ ('"' :: ':' :: ' ' ::
              (prettyV v (ind + 1) ++ (prettyObjTail t (ind + 1) ++
                ('\n' :: (pad (2 * ind) ++ ('}' :: rest)))))))))
              = '"' :: (escList k.data ++ ('"' :: ':' :: ' ' ::
                (prettyV v (ind + 1) ++ (prettyObjTail t (ind + 1) ++
                  ('\n' :: (pad (2 * ind) ++ ('}' :: rest))))))) := by
            rw [skipWs_append_allWs hws]
            exact skipWs_cons_not _ (by decide)
          rw [hsk1]
          have hns : numSafe (prettyObjTail t (ind + 1) ++
              ('\n' :: (pad (2 * ind) ++ ('}' :: rest)))) = true := by
            cases t <;> rfl
          have hv := parse_prettyV v (ind + 1) f
            (prettyObjTail t (ind + 1) ++ ('\n' :: (pad (2 * ind) ++ ('}' :: rest))))
            (by omega) hns
          have hvS : parseValue f (' ' :: (prettyV v (ind + 1) ++ (prettyObjTail t (ind + 1) ++
              ('\n' :: (pad (2 * ind) ++ ('}' :: rest))))))
              = some (v, prettyObjTail t (ind + 1) ++
                  ('\n' :: (pad (2 * ind) ++ ('}' :: rest)))) := by
            rw [← List.singleton_append, parseValue_ws_prefix (by decide), hv]
          have hsk2 : skipWs (':' :: (' ' :: (prettyV v (ind + 1) ++ (prettyObjTail t (ind + 1) ++
              ('\n' :: (pad (2 * ind) ++ ('}' :: rest)))))))
              = ':' :: (' ' :: (prettyV v (ind + 1) ++ (prettyObjTail t (ind + 1) ++
                  ('\n' :: (pad (2 * ind) ++ ('}' :: rest)))))) :=
            skipWs_cons_not _ (by decide)
          cases t with
          | nil =>
              have hsk3 : skipWs (prettyObjTail JsonObj.nil (ind + 1) ++
                  ('\n' :: (pad (2 * ind) ++ ('}' :: rest)))) = '}' :: rest := by
                show skipWs (('\n' :: pad (2 * ind)) ++ ('}' :: rest)) = '}' :: rest
                rw [skipWs_append_allWs (allWs_nl_pad _)]
                exact skipWs_cons_not _ (by decide)
              simp only [parseStrBody_render, hsk2, hvS, hsk3, stringMk_data]
          | cons k2 v2 t2 =>
              have hshape : prettyObjTail (JsonObj.cons k2 v2 t2) (ind + 1) ++
                  ('\n' :: (pad (2 * ind) ++ ('}' :: rest)))
                  = ',' :: (('\n' :: pad (2 * (ind + 1))) ++ ('"' :: (escList k2.data ++
                      ('"' :: ':' :: ' ' :: (prettyV v2 (ind + 1) ++ (prettyObjTail t2 (ind + 1) ++
                        ('\n' :: (pad (2 * ind) ++ ('}' :: rest))))))))) := by
                simp [prettyObjTail, List.append_assoc]
              have hsk3 : skipWs (prettyObjTail (JsonObj.cons k2 v2 t2) (ind + 1) ++
                  ('\n' :: (pad (2 * ind) ++ ('}' :: rest))))
                  = ',' :: (('\n' :: pad (2 * (ind + 1))) ++ ('"' :: (escList k2.data ++
                      ('"' :: ':' :: ' ' :: (prettyV v2 (ind + 1) ++ (prettyObjTail t2 (ind + 1) ++
                        ('\n' :: (pad (2 * ind) ++ ('}' :: rest))))))))) := by
                rw [hshape]
                exact skipWs_cons_not _ (by decide)
              have hb2 : (escList k2.data).length + (prettyV v2 (ind + 1)).length
                  + (prettyObjTail t2 (ind + 1)).length + 1 < f := by
                simp only [prettyObjTail, List.length_cons, List.length_append, pad,
                  List.length_replicate] at hb
                omega
              have key := parse_prettyObj k2 v2 t2 ind f ('\n' :: pad (2 * (ind + 1))) rest
                (allWs_nl_pad _) hb2
              simp only [parseStrBody_render, hsk2, hvS, hsk3, key, stringMk_data]
termination_by _ v t _ _ _ _ _ _ => sizeOf v + sizeOf t + 1

end

/-- The codec round-trip: `json.load` reading back what `json.dumps`
wrote reproduces the value exactly, for every JSON value. -/
theorem json_loads_dumps (v : Json) : json_loads (json_dumps v) = some v := by
  have hp := parse_prettyV v 0 ((prettyV v 0).length + 1) [] (by omega) rfl
  rw [List.append_nil] at hp
  show (match parseValue ((prettyV v 0).length + 1) (prettyV v 0) with
        | some (w, rest) => if (skipWs rest).isEmpty then some w else none
        | none => none) = some v
  rw [hp]
  rfl

/-! ## Claim infrastructure -/

/-- The spec's response-classification table for HTTP 200 bodies, stated
from the spec's words ("a mapping containing a `data` key → unwrap and
return that value; a bare sequence → return as-is; any other shape →
`UnexpectedShapeError`"), to compare against `execRequest`. -/
def responseClassificationSpec (body : Json) : Except String Json :=
  match body with
  | .obj fs =>
      match JsonObj.lookup "data" fs with
      | some v => .ok v
      | none => .error "Unexpected API response structure"
  | .arr xs => .ok (.arr xs)
  | _ => .error "Unexpected API response structure"

/-- A transient response in the sense of the spec: HTTP 429 or any 5xx. -/
def isTransient (r : HttpResponse) : Prop :=
  r.status = 429 ∨ (500 ≤ r.status ∧ r.status < 600)

theorem execRequest_transient {r : HttpResponse} (h : isTransient r) :
    ∃ e, execRequest r = .error e := by
  rcases h with h429 | h5xx
  · exact ⟨"Rate limit exceeded", by rw [execRequest, if_neg (by omega), if_pos h429]⟩
  · exact ⟨"API request failed with status " ++ toString r.status,
      by rw [execRequest, if_neg (by omega), if_neg (by omega)]⟩

theorem execRequest_200 (body : Json) :
    execRequest ⟨200, body⟩ = responseClassificationSpec body := by
  cases body <;> rfl

theorem execRequest_error_classify {r : HttpResponse} {e : String}
    (h : execRequest r = .error e) :
    e = "Unexpected API response structure" ∨ e = "Rate limit exceeded"
      ∨ e = "API request failed with status " ++ toString r.status := by
  rw [execRequest] at h
  by_cases h200 : r.status = 200
  · rw [if_pos h200] at h
    split at h
    · split at h
      · exact absurd h (by simp)
      · left; cases h; rfl
    · exact absurd h (by simp)
    · left; cases h; rfl
  · rw [if_neg h200] at h
    by_cases h429 : r.status = 429
    · rw [if_pos h429] at h
      right; left; cases h; rfl
    · rw [if_neg h429] at h
      right; right; cases h; rfl

theorem countyLoop_eq (l : List CountyFetch) :
    countyLoop l = (l.filterMap (fun cf =>
        match cf.fmr, cf.il with
        | .ok f, .ok i => some ⟨cf.county, f, i⟩
        | _, _ => none),
      (l.filter (fun cf =>
        match cf.fmr, cf.il with
        | .ok _, .ok _ => false
        | _, _ => true)).length) := by
  induction l with
  | nil => rfl
  | cons cf rest ih =>
      rw [countyLoop]
      match hf : cf.fmr with
      | .error e => simp [hf, ih, List.filterMap_cons, List.filter_cons]
      | .ok fv =>
          match hi : cf.il with
          | .error e => simp [hf, hi, ih, List.filterMap_cons, List.filter_cons]
          | .ok iv => simp [hf, hi, ih, List.filterMap_cons, List.filter_cons]

theorem attemptFrom_succ (env : Nat → HttpResponse) (i remaining : Nat) :
    attemptFrom env i (remaining + 1) =
      match execRequest (env i) with
      | .ok v => (.ok v, i + 1)
      | .error e =>
          if remaining == 0 then (.error e, i + 1) else attemptFrom env (i + 1) remaining := rfl

/-! ## The claims -/

/-- C2: for every HTTP 200 response the executor returns the value
under the `data` key when the body is a mapping containing `data`,
returns a bare sequence unchanged, and signals the unexpected-shape
error for any other body; in particular a response with body
`data: [1,2,3]` yields `[1,2,3]`, a bare `[1,2,3]` yields itself, and a
`foo: bar` mapping yields the unexpected-structure error. -/
theorem C2_response_shapes :
    (∀ body : Json, execRequest ⟨200, body⟩ = responseClassificationSpec body)
    ∧ execRequest ⟨200, .obj (.cons "data"
          (.arr (.cons (.num 1) (.cons (.num 2) (.cons (.num 3) .nil)))) .nil)⟩
        = .ok (.arr (.cons (.num 1) (.cons (.num 2) (.cons (.num 3) .nil))))
    ∧ execRequest ⟨200, .arr (.cons (.num 1) (.cons (.num 2) (.cons (.num 3) .nil)))⟩
        = .ok (.arr (.cons (.num 1) (.cons (.num 2) (.cons (.num 3) .nil))))
    ∧ execRequest ⟨200, .obj (.cons "foo" (.str "bar") .nil)⟩
        = .error "Unexpected API response structure" :=
  ⟨execRequest_200, rfl, rfl, rfl⟩

/-- C3: for every run in which fewer than 3 consecutive attempts hit a
transient failure (429 or 5xx) and the next attempt answers 200 with a
well-shaped body, the executor returns the correctly unwrapped payload
after exactly `k + 1 ≤ 3` attempts. -/
theorem C3_retry_eventually_succeeds (env : Nat → HttpResponse) (k : Nat) (body v : Json)
    (hk : k < 3)
    (htrans : ∀ i, i < k → isTransient (env i))
    (hresp : env k = ⟨200, body⟩)
    (hunwrap : responseClassificationSpec body = .ok v) :
    makeRequest env = (.ok v, k + 1) ∧ k + 1 ≤ 3 := by
  have hexec : execRequest (env k) = .ok v := by
    rw [hresp, execRequest_200, hunwrap]
  refine ⟨?_, by omega⟩
  interval_cases k
  · rw [makeRequest]
    show attemptFrom env 0 (2 + 1) = _
    rw [attemptFrom_succ, hexec]
  · obtain ⟨e0, h0⟩ := execRequest_transient (htrans 0 (by omega))
    rw [makeRequest]
    show attemptFrom env 0 (2 + 1) = _
    rw [attemptFrom_succ, h0]
    show attemptFrom env 1 (1 + 1) = _
    rw [attemptFrom_succ, hexec]
  · obtain ⟨e0, h0⟩ := execRequest_transient (htrans 0 (by omega))
    obtain ⟨e1, h1⟩ := execRequest_transient (htrans 1 (by omega))
    rw [makeRequest]
    show attemptFrom env 0 (2 + 1) = _
    rw [attemptFrom_succ, h0]
    show attemptFrom env 1 (1 + 1) = _
    rw [attemptFrom_succ, h1]
    show attemptFrom env 2 (0 + 1) = _
    rw [attemptFrom_succ, hexec]

/-- C3 witness: one 429, then a 200 wrapping `data: []` — the executor
returns the unwrapped empty list on the second of at most 3 attempts. -/
theorem C3_witness :
    (1 : Nat) < 3
    ∧ makeRequest (fun i => if i = 0 then ⟨429, .arr .nil⟩
        else ⟨200, .obj (.cons "data" (.arr .nil) .nil)⟩) = (.ok (.arr .nil), 2)
    ∧ (1 : Nat) + 1 ≤ 3 := by
  have h := C3_retry_eventually_succeeds
    (fun i => if i = 0 then ⟨429, .arr .nil⟩
      else ⟨200, .obj (.cons "data" (.arr .nil) .nil)⟩)
    1 (.obj (.cons "data" (.arr .nil) .nil)) (.arr .nil)
    (by omega)
    (by
      intro i hi
      have hz : i = 0 := by omega
      subst hz
      exact Or.inl rfl)
    rfl rfl
  exact ⟨by omega, h.1, h.2⟩

/-- C4: when all 3 attempts fail, the executor propagates an error (no
fallback value) after exactly 3 attempts, and the final error is the
classification of the last attempt's failure (unexpected shape, rate
limit, or status code). -/
theorem C4_exhausted_retries_propagate (env : Nat → HttpResponse) (e1 e2 e3 : String)
    (h1 : execRequest (env 0) = .error e1)
    (h2 : execRequest (env 1) = .error e2)
    (h3 : execRequest (env 2) = .error e3) :
    makeRequest env = (.error e3, 3)
    ∧ (e3 = "Unexpected API response structure" ∨ e3 = "Rate limit exceeded"
        ∨ e3 = "API request failed with status " ++ toString (env 2).status) := by
  refine ⟨?_, execRequest_error_classify h3⟩
  rw [makeRequest]
  show attemptFrom env 0 (2 + 1) = _
  rw [attemptFrom_succ, h1]
  show attemptFrom env 1 (1 + 1) = _
  rw [attemptFrom_succ, h2]
  show attemptFrom env 2 (0 + 1) = _
  rw [attemptFrom_succ, h3]
  rfl

/-- C4 witness: 500, 429, then a mis-shaped 200 body — the error of the
third attempt (unexpected shape) is what propagates, after 3 attempts. -/
theorem C4_witness :
    makeRequest (fun i => if i = 0 then ⟨500, .arr .nil⟩
        else if i = 1 then ⟨429, .arr .nil⟩
        else ⟨200, .obj (.cons "foo" (.str "bar") .nil)⟩)
      = (.error "Unexpected API response structure", 3) :=
  (C4_exhausted_retries_propagate
    (fun i => if i = 0 then ⟨500, .arr .nil⟩
      else if i = 1 then ⟨429, .arr .nil⟩
      else ⟨200, .obj (.cons "foo" (.str "bar") .nil)⟩)
    "API request failed with status 500" "Rate limit exceeded"
    "Unexpected API response structure" rfl rfl rfl).1

/-- The 5-county example run of the spec: county 3's fair-market-rent
fetch throws, everything else succeeds. -/
def exCounties5 : List CountyFetch :=
  [⟨⟨"05001", "Baker"⟩, .ok (.num 1), .ok (.num 11)⟩,
   ⟨⟨"05003", "Clark"⟩, .ok (.num 2), .ok (.num 12)⟩,
   ⟨⟨"05005", "Davis"⟩, .error "API request failed with status 500", .ok (.num 13)⟩,
   ⟨⟨"05007", "Ellis"⟩, .ok (.num 4), .ok (.num 14)⟩,
   ⟨⟨"05009", "Frost"⟩, .ok (.num 5), .ok (.num 15)⟩]

/-- The packages the example run should yield: counties 1, 2, 4, 5. -/
def exPackages4 : List CountyPackage :=
  [⟨⟨"05001", "Baker"⟩, .num 1, .num 11⟩,
   ⟨⟨"05003", "Clark"⟩, .num 2, .num 12⟩,
   ⟨⟨"05007", "Ellis"⟩, .num 4, .num 14⟩,
   ⟨⟨"05009", "Frost"⟩, .num 5, .num 15⟩]

/-- C5: the county aggregator catches any per-county failure, logs it
(one `logger.error` per failed county) and continues; the result is
exactly the full packages of the counties whose two fetches both
succeeded, in order — failed counties are omitted entirely and no
partial package exists.  In particular the 5-county run where county 3
throws on its FMR fetch yields the 4 packages omitting county 3, with
one error logged. -/
theorem C5_per_county_failures_skipped :
    (∀ (l : List CountyFetch) (sc : String) (y : Nat),
        get_county_data (.ok l) sc y
          = .ok (l.filterMap (fun cf =>
              match cf.fmr, cf.il with
              | .ok f, .ok i => some ⟨cf.county, f, i⟩
              | _, _ => none),
            (l.filter (fun cf =>
              match cf.fmr, cf.il with
              | .ok _, .ok _ => false
              | _, _ => true)).length))
    ∧ get_county_data (.ok exCounties5) "TX" 2024 = .ok (exPackages4, 1)
    ∧ exPackages4.length = 4 := by
  refine ⟨?_, rfl, rfl⟩
  intro l sc y
  show Except.ok (countyLoop l) = _
  rw [countyLoop_eq]

/-- C6: with both the state code and the entity identifier absent
(falsy), each fetcher fails at once with the `ValueError` and issues
zero network attempts. -/
theorem C6_state_or_entity_required (env : Nat → HttpResponse) (year : Option Nat)
    (state entity_id : Option String)
    (hs : truthyStr state = false) (he : truthyStr entity_id = false) :
    get_fair_market_rents env year state entity_id
        = (.error "Either state code or entity_id must be provided", 0)
    ∧ get_income_limits env year state entity_id
        = (.error "Either state code or entity_id must be provided", 0) := by
  constructor
  · simp [get_fair_market_rents, fmr_url, hs, he]
  · simp [get_income_limits, il_url, hs, he]

/-- C6 witness: the `None`/`None` call. -/
theorem C6_witness :
    truthyStr none = false
    ∧ get_fair_market_rents (fun _ => ⟨200, .arr .nil⟩) none none none
        = (.error "Either state code or entity_id must be provided", 0)
    ∧ get_income_limits (fun _ => ⟨200, .arr .nil⟩) none none none
        = (.error "Either state code or entity_id must be provided", 0) := by
  have h := C6_state_or_entity_required (fun _ => ⟨200, .arr .nil⟩) none none none rfl rfl
  exact ⟨rfl, h.1, h.2⟩

/-- C8: a state whose county-list fetch returns zero counties yields an
empty aggregate with no error (and no error logged). -/
theorem C8_zero_counties (sc : String) (y : Nat) :
    get_county_data (.ok []) sc y = .ok ([], 0) := rfl

/-- C10: with both a state code and a (truthy) entity identifier
provided, the entity identifier wins: the URL is the per-entity data
URL, and the whole call behaves identically to the call with the state
code absent. -/
theorem C10_entity_id_precedence (env : Nat → HttpResponse) (year : Option Nat)
    (state : Option String) (s : String) (hs : (s == "") = false) :
    fmr_url state (some s) = .ok (base_url ++ "/fmr/data/" ++ s)
    ∧ il_url state (some s) = .ok (base_url ++ "/il/data/" ++ s)
    ∧ fmr_url state (some s) = fmr_url none (some s)
    ∧ il_url state (some s) = il_url none (some s)
    ∧ get_fair_market_rents env year state (some s)
        = get_fair_market_rents env year none (some s)
    ∧ get_income_limits env year state (some s)
        = get_income_limits env year none (some s) := by
  have ht : truthyStr (some s) = true := by
    simp only [truthyStr, hs]
    rfl
  refine ⟨?_, ?_, ?_, ?_, ?_, ?_⟩ <;>
    simp [fmr_url, il_url, get_fair_market_rents, get_income_limits, ht]

/-- C10 witness: a concrete FIPS entity id with a state code also
present. -/
theorem C10_witness :
    (("0500199999" == "") = false)
    ∧ (fmr_url (some "TX") (some "0500199999")
          = .ok (base_url ++ "/fmr/data/" ++ "0500199999")
        ∧ il_url (some "TX") (some "0500199999")
          = .ok (base_url ++ "/il/data/" ++ "0500199999")
        ∧ fmr_url (some "TX") (some "0500199999") = fmr_url none (some "0500199999")
        ∧ il_url (some "TX") (some "0500199999") = il_url none (some "0500199999")
        ∧ get_fair_market_rents (fun _ => ⟨200, .arr .nil⟩) none (some "TX") (some "0500199999")
            = get_fair_market_rents (fun _ => ⟨200, .arr .nil⟩) none none (some "0500199999")
        ∧ get_income_limits (fun _ => ⟨200, .arr .nil⟩) none (some "TX") (some "0500199999")
            = get_income_limits (fun _ => ⟨200, .arr .nil⟩) none none (some "0500199999")) :=
  ⟨by decide, C10_entity_id_precedence (fun _ => ⟨200, .arr .nil⟩) none (some "TX")
    "0500199999" (by decide)⟩

/-- A world with nothing written and nothing logged. -/
def emptyWorld : World := ⟨[], [], [], 0⟩

/-- C7: writing any non-empty package with the local JSON sink
succeeds, the file at `data/<dataset>/<year>/<state>/<state>_data.json`
holds exactly `json.dumps(package, indent=2)`, and parsing the file
back reproduces exactly the package that was written. -/
theorem C7_local_sink_roundtrip (data : Json) (ds : String) (y : Nat) (st : String)
    (w : World) (h : data.isTruthy = true) :
    ∃ w', save_locally data ds y st w = .ok w'
      ∧ lookupFile (localPath ds y st) w'.localFiles = some (json_dumps data)
      ∧ json_loads (json_dumps data) = some data := by
  refine ⟨{ w with localFiles := (localPath ds y st, json_dumps data) :: w.localFiles },
    ?_, ?_, json_loads_dumps data⟩
  · simp [save_locally, h]
  · simp [lookupFile]

/-- A representative non-empty state package for the C7 witness. -/
def exPackage : Json :=
  statePackage (.arr (.cons (.obj (.cons "fmr" (.num 1200) .nil)) .nil))
    (countiesJson [⟨⟨"05001", "Baker"⟩, .num 1, .num 11⟩])

/-- C7 witness: the round-trip evaluated on a concrete package. -/
theorem C7_witness :
    exPackage.isTruthy = true
    ∧ (∃ w', save_locally exPackage "fair_market_rents" 2024 "TX" emptyWorld = .ok w'
        ∧ lookupFile (localPath "fair_market_rents" 2024 "TX") w'.localFiles
            = some (json_dumps exPackage)
        ∧ json_loads (json_dumps exPackage) = some exPackage) :=
  ⟨rfl, C7_local_sink_roundtrip exPackage "fair_market_rents" 2024 "TX" emptyWorld rfl⟩

/-- The C1 scenario: storage mode `"local"`, state-level fetches
succeed with empty data, no counties. -/
def envC1 : PipelineEnv := ⟨.ok (.arr .nil), .ok (.arr .nil), .ok []⟩

/-- The C1 run: `process_state("ZZ", 2024, "local")` against `envC1`. -/
def C1run : Except String World := process_state false envC1 emptyWorld "ZZ" 2024 "local"

/-- Local files written by a run (zero when the run raised). -/
def localFilesCount : Except String World → Nat
  | .ok w => w.localFiles.length
  | .error _ => 0

/-- C1 counterexample: with storage mode `"local"` and empty state-level
data, `process_state` does NOT raise — the packages passed to the sink
are dicts with the `state_level` and `counties` keys, which are truthy
even when their values are empty — and it writes two files. -/
theorem C1_counterexample :
    (¬ ∃ e, C1run = Except.error e) ∧ localFilesCount C1run = 2 := by
  constructor
  · rintro ⟨e, h⟩
    have hok : localFilesCount C1run = 2 := rfl
    rw [h] at hok
    simp [localFilesCount] at hok
  · rfl

/-- C1 amended: `process_state` with storage mode `"local"` and
successful fetches (empty data included) completes without error and
writes both files; the local sink's empty-package `ValueError` fires
only when the package passed to `save_locally` is itself empty (falsy),
which `process_state` never produces. -/
theorem C1_amended (conn : Bool) (fmr il : Json) (cfs : List CountyFetch) (w : World)
    (sc : String) (y : Nat) :
    (∃ w', process_state conn ⟨.ok fmr, .ok il, .ok cfs⟩ w sc y "local" = .ok w'
        ∧ w'.localFiles
            = (localPath "income_limits" y sc,
                json_dumps (statePackage il (countiesJson (countyLoop cfs).1)))
              :: (localPath "fair_market_rents" y sc,
                json_dumps (statePackage fmr (countiesJson (countyLoop cfs).1)))
              :: w.localFiles
        ∧ w'.azureBlobs = w.azureBlobs ∧ w'.azureParquet = w.azureParquet)
    ∧ (∀ (d : Json) (ds : String) (y2 : Nat) (st : String) (w2 : World),
        d.isTruthy = false →
        save_locally d ds y2 st w2 = .error ("No data provided for " ++ ds)) := by
  constructor
  · exact ⟨_, rfl, rfl, rfl, rfl⟩
  · intro d ds y2 st w2 hd
    simp [save_locally, hd]

/-- C1 amended witness: the empty-package error on a directly-empty
package. -/
theorem C1_amended_witness :
    (Json.obj .nil).isTruthy = false
    ∧ save_locally (Json.obj .nil) "fair_market_rents" 2024 "ZZ" emptyWorld
        = .error ("No data provided for " ++ "fair_market_rents") :=
  ⟨rfl, (C1_amended false (.arr .nil) (.arr .nil) [] emptyWorld "ZZ" 2024).2
    (Json.obj .nil) "fair_market_rents" 2024 "ZZ" emptyWorld rfl⟩

/-- C9: a storage_type outside local/azure/both matches neither sink
branch: with the fetches succeeding, `process_state` completes without
error about the unrecognized mode and writes nothing locally or
remotely (only the county loop's error log advances); and the fetches
are still performed — a failing state-level fetch propagates its error
even under the unknown mode. -/
theorem C9_unknown_storage_type (conn : Bool) (w : World) (sc : String) (y : Nat)
    (mode : String)
    (h1 : (mode == "local") = false) (h2 : (mode == "azure") = false)
    (h3 : (mode == "both") = false) :
    (∀ (fmr il : Json) (cfs : List CountyFetch),
        ∃ w', process_state conn ⟨.ok fmr, .ok il, .ok cfs⟩ w sc y mode = .ok w'
          ∧ w'.localFiles = w.localFiles
          ∧ w'.azureBlobs = w.azureBlobs
          ∧ w'.azureParquet = w.azureParquet
          ∧ w'.errorLogCount = w.errorLogCount + (countyLoop cfs).2)
    ∧ (∀ (env : PipelineEnv) (e : String), env.fmrState = .error e →
        process_state conn env w sc y mode = .error e) := by
  constructor
  · intro fmr il cfs
    have hred : process_state conn ⟨.ok fmr, .ok il, .ok cfs⟩ w sc y mode
        = .ok { w with errorLogCount := w.errorLogCount + (countyLoop cfs).2 } := by
      simp [process_state, h1, h2, h3]
    exact ⟨_, hred, rfl, rfl, rfl, rfl⟩
  · intro env e he
    simp [process_state, he]

/-- C9 witness: the unknown mode `"s3"` on a concrete environment. -/
theorem C9_witness :
    ∃ w', process_state false ⟨.ok (.arr .nil), .ok (.arr .nil), .ok []⟩ emptyWorld
        "TX" 2024 "s3" = .ok w'
      ∧ w'.localFiles = emptyWorld.localFiles
      ∧ w'.azureBlobs = emptyWorld.azureBlobs
      ∧ w'.azureParquet = emptyWorld.azureParquet
      ∧ w'.errorLogCount = emptyWorld.errorLogCount + (countyLoop []).2 :=
  (C9_unknown_storage_type false emptyWorld "TX" 2024 "s3" rfl rfl rfl).1
    (.arr .nil) (.arr .nil) []
